import Mathlib

/-!
Shallow embedding of the Gmail download-and-convert pipeline (`cli.py`): the
paginated identifier retriever, the MIME payload extractor, the idempotent
batch downloader and the markdown conversion stage, together with proofs of
the specified properties.  External collaborators (the remote mailbox
service, the base64+UTF-8 decoder, the text-to-essay converter) are passed in
as function parameters; a `none` result models a raised exception.
-/

/-- Fetch format of the remote `get` endpoint: full message body, or
headers-only metadata (as used by the dry-run preview). -/
inductive FetchFormat : Type where
  | full
  | metadata
  deriving DecidableEq

mutual
/-- One node of a MIME payload tree.  `leaf` is a payload dict with no
`parts` key; `container` is a dict whose `parts` key is present (possibly an
empty list).  `data` models the optional `body.data` field (an encoded octet
string). -/
inductive PayloadNode : Type where
  | leaf (mimeType : String) (data : Option String)
  | container (mimeType : String) (data : Option String) (parts : PayloadForest)

/-- The ordered list of child parts of a container node. -/
inductive PayloadForest : Type where
  | nil
  | cons (p : PayloadNode) (rest : PayloadForest)
end

/-- The `payload` dict of a fetched message: its optional `headers` list and
the MIME tree rooted at the dict itself (the extractor only reads
`mimeType` / `body` / `parts`, the header extraction only reads `headers`). -/
structure PayloadTop : Type where
  headers : Option (List (String × String))
  node : PayloadNode

/-- A raw message as returned by the remote `get` endpoint; every field is
optional, mirroring dictionary-key presence. -/
structure GmailMessage : Type where
  id : Option String
  threadId : Option String
  labelIds : Option (List String)
  snippet : Option String
  payload : Option PayloadTop

/-- The decoded `body` sub-object of a persisted record. -/
structure EmailBody : Type where
  text : String
  html : String
  deriving DecidableEq

/-- The persisted RawEmailRecord JSON schema:
`{id, threadId, labelIds, snippet, headers, body: {text, html}}`. -/
structure RawEmailRecord : Type where
  id : String
  threadId : String
  labelIds : List String
  snippet : String
  headers : List (String × String)
  body : EmailBody
  deriving DecidableEq

/-- Recursive extraction of decoded content from the ordered child parts of a
container, mirroring the `for part in payload['parts']` loop of
`extract_content_from_payload`.  `content` is the loop variable carrying the
remembered plain-text fallback; a `return` out of the loop (Python `break`
followed by `return content`) is an `.ok`, a raised decode error is
`.error ()`.  When a part has sub-parts the loop overwrites `content` with the
recursive result (`content = extract_content_from_payload(part, ...)`), and
since that recursive call on a dict carrying `parts` immediately enters the
child loop with a fresh empty `content`, it is embedded here as a direct
recursive call on the child forest. -/
def extractParts (decode : String → Option String) (filt : Option String) :
    PayloadForest → String → Except Unit String
  | .nil, content => .ok content
  | .cons p rest, content =>
    match p with
    | .leaf mime data =>
      match filt with
      | some f =>
        if mime = f then
          match data with
          | some d =>
            match decode d with
            | some s => .ok s
            | none => .error ()
          | none => extractParts decode filt rest content
        else extractParts decode filt rest content
      | none =>
        if mime = "text/html" then
          match data with
          | some d =>
            match decode d with
            | some s => .ok s
            | none => .error ()
          | none => extractParts decode filt rest content
        else if mime = "text/plain" then
          match data with
          | some d =>
            if content = "" then
              match decode d with
              | some s => extractParts decode filt rest s
              | none => .error ()
            else extractParts decode filt rest content
          | none => extractParts decode filt rest content
        else extractParts decode filt rest content
    | .container mime data parts =>
      match filt with
      | some f =>
        if mime = f then
          match data with
          | some d =>
            match decode d with
            | some s => .ok s
            | none => .error ()
          | none =>
            match extractParts decode filt parts "" with
            | .error e => .error e
            | .ok c2 => if c2 = "" then extractParts decode filt rest c2 else .ok c2
        else
          match extractParts decode filt parts "" with
          | .error e => .error e
          | .ok c2 => if c2 = "" then extractParts decode filt rest c2 else .ok c2
      | none =>
        if mime = "text/html" then
          match data with
          | some d =>
            match decode d with
            | some s => .ok s
            | none => .error ()
          | none =>
            match extractParts decode filt parts "" with
            | .error e => .error e
            | .ok c2 => if c2 = "" then extractParts decode filt rest c2 else .ok c2
        else if mime = "text/plain" then
          match data with
          | some d =>
            if content = "" then
              match decode d with
              | some _ =>
                match extractParts decode filt parts "" with
                | .error e => .error e
                | .ok c2 => if c2 = "" then extractParts decode filt rest c2 else .ok c2
              | none => .error ()
            else
              match extractParts decode filt parts "" with
              | .error e => .error e
              | .ok c2 => if c2 = "" then extractParts decode filt rest c2 else .ok c2
          | none =>
            match extractParts decode filt parts "" with
            | .error e => .error e
            | .ok c2 => if c2 = "" then extractParts decode filt rest c2 else .ok c2
        else
          match extractParts decode filt parts "" with
          | .error e => .error e
          | .ok c2 => if c2 = "" then extractParts decode filt rest c2 else .ok c2

/-- Embedding of `extract_content_from_payload(payload, mime_type_filter)`.
A payload with a `parts` key enters the child loop with empty content; a
leaf payload is decoded directly when its own content type matches the
filter (or is one of the two fallback types when no filter is given). -/
def extract_content_from_payload (decode : String → Option String)
    (payload : PayloadNode) (filt : Option String) : Except Unit String :=
  match payload with
  | .container _ _ parts => extractParts decode filt parts ""
  | .leaf mime data =>
    if (mime = "text/html" ∨ mime = "text/plain") ∧ (filt = none ∨ filt = some mime) then
      match data with
      | some d =>
        match decode d with
        | some s => .ok s
        | none => .error ()
      | none => .ok ""
    else .ok ""

/-- Python-dict insertion with last-write-wins on duplicate keys, preserving
first-insertion order (`processed['headers'][name] = value`). -/
def dictSet (d : List (String × String)) (k v : String) : List (String × String) :=
  if (d.lookup k).isSome then
    d.map (fun p => if p.1 = k then (k, v) else p)
  else d ++ [(k, v)]

/-- Folds a raw header list into a name-to-value mapping. -/
def buildHeaders (hs : List (String × String)) : List (String × String) :=
  hs.foldl (fun acc p => dictSet acc p.1 p.2) []

/-- Embedding of `process_email_for_storage(message)`: assemble the
RawEmailRecord with empty defaults for each missing field, copy the headers
when `payload.headers` is present, and decode the plain-text and HTML bodies
through the extractor.  A decode failure raised by the extractor propagates
(`.error`). -/
def process_email_for_storage (decode : String → Option String) (m : GmailMessage) :
    Except Unit RawEmailRecord :=
  let headers : List (String × String) :=
    match m.payload with
    | some pt =>
      match pt.headers with
      | some hs => buildHeaders hs
      | none => []
    | none => []
  match m.payload with
  | none =>
    .ok { id := m.id.getD "", threadId := m.threadId.getD "", labelIds := m.labelIds.getD [],
          snippet := m.snippet.getD "", headers := headers, body := { text := "", html := "" } }
  | some pt =>
    match extract_content_from_payload decode pt.node (some "text/plain") with
    | .error e => .error e
    | .ok t =>
      match extract_content_from_payload decode pt.node (some "text/html") with
      | .error e => .error e
      | .ok h =>
        .ok { id := m.id.getD "", threadId := m.threadId.getD "",
              labelIds := m.labelIds.getD [], snippet := m.snippet.getD "",
              headers := headers, body := { text := t, html := h } }

/-- Fetching and processing one identifier: a `none` from the service models a
raised transport error, a `.error` from processing a raised decode error; both
surface as `none` to the per-identifier handler of the download loop. -/
def fetchProcess (service : String → FetchFormat → Option GmailMessage)
    (decode : String → Option String) (msgId : String) : Option RawEmailRecord :=
  match service msgId .full with
  | none => none
  | some m => (process_email_for_storage decode m).toOption

/-- The per-identifier loop of `download_email_batch`: skip when
`{id}.json` already exists, otherwise attempt the full fetch (recorded in the
second component), process and write.  Any per-item error is caught and the
loop continues.  The batching of the identifier list only drives progress
printing in the source and has no other observable effect, so it is not
modelled.  Writes are modelled by consing, so `List.lookup` sees the newest
content for a filename. -/
def downloadLoop (service : String → FetchFormat → Option GmailMessage)
    (decode : String → Option String) :
    List String → List (String × RawEmailRecord) →
      (List (String × RawEmailRecord) × List (String × FetchFormat))
  | [], files => (files, [])
  | msgId :: rest, files =>
    if (files.lookup (msgId ++ ".json")).isSome then
      downloadLoop service decode rest files
    else
      match fetchProcess service decode msgId with
      | none =>
        let r := downloadLoop service decode rest files
        (r.1, (msgId, .full) :: r.2)
      | some rcd =>
        let r := downloadLoop service decode rest ((msgId ++ ".json", rcd) :: files)
        (r.1, (msgId, .full) :: r.2)

/-- The local file store: the set of created directories and the persisted
`{id}.json` record files. -/
structure LocalStore : Type where
  dirs : List String
  files : List (String × RawEmailRecord)
  deriving DecidableEq

/-- Result of one downloader run: the store afterwards and the list of remote
fetches performed (identifier and format, in order). -/
structure DownloadResult : Type where
  store : LocalStore
  fetchLog : List (String × FetchFormat)
  deriving DecidableEq

/-- `mkdir(exist_ok=True)`. -/
def mkdirExistOk (ds : List String) (d : String) : List String :=
  if d ∈ ds then ds else ds ++ [d]

/-- Embedding of `download_email_batch`.  In dry-run mode nothing is written
and no directory is created; only headers-only metadata fetches for the first
`min(5, n)` identifiers are performed.  Otherwise the output directories are
created and the per-identifier loop runs. -/
def download_email_batch (service : String → FetchFormat → Option GmailMessage)
    (decode : String → Option String) (message_ids : List String) (output_dir : String)
    (store : LocalStore) (dry_run : Bool) : DownloadResult :=
  if dry_run then
    { store := store,
      fetchLog := (message_ids.take (min 5 message_ids.length)).map
        (fun i => (i, FetchFormat.metadata)) }
  else
    let dirs := mkdirExistOk store.dirs output_dir
    let dirs2 := mkdirExistOk dirs (output_dir ++ "/raw_emails")
    let r := downloadLoop service decode message_ids store.files
    { store := { dirs := dirs2, files := r.1 }, fetchLog := r.2 }

/-- One page returned by the remote listing endpoint. -/
structure ListPage : Type where
  messages : List String
  nextPageToken : Option String
  deriving DecidableEq

/-- Python truthiness of `args.max_results`: `None` and `0` are falsy. -/
def truthyMax : Option Nat → Option Nat
  | none => none
  | some m => if m = 0 then none else some m

/-- The `while True` loop of `get_message_ids`.  Each listing call is made
with page size `max_results if max_results else 500` and the last returned
cursor; the loop stops when the accumulated count reaches a truthy maximum
(truncating to exactly that count), when no further cursor is returned, or
when a call raises (`none` from the service), returning what was accumulated.
`fuel` bounds the number of iterations of the unbounded source loop; every
property proved below holds for arbitrary fuel.  The second component records
the (pageSize, pageToken) of every listing call made, in order. -/
def getLoop (service : Nat → Option String → Option ListPage) (max_results : Option Nat) :
    Nat → Option String → List String → (List String × List (Nat × Option String))
  | 0, _, acc => (acc, [])
  | fuel + 1, token, acc =>
    let psize := (truthyMax max_results).getD 500
    match service psize token with
    | none => (acc, [(psize, token)])
    | some page =>
      let acc2 := acc ++ page.messages
      match truthyMax max_results with
      | some m =>
        if m ≤ acc2.length then (acc2.take m, [(psize, token)])
        else
          match page.nextPageToken with
          | none => (acc2, [(psize, token)])
          | some t =>
            let r := getLoop service max_results fuel (some t) acc2
            (r.1, (psize, token) :: r.2)
      | none =>
        match page.nextPageToken with
        | none => (acc2, [(psize, token)])
        | some t =>
          let r := getLoop service max_results fuel (some t) acc2
          (r.1, (psize, token) :: r.2)

/-- Embedding of `get_message_ids`: run the listing loop from the first page
(no cursor) with an empty accumulator. -/
def get_message_ids (service : Nat → Option String → Option ListPage)
    (max_results : Option Nat) (fuel : Nat) : List String × List (Nat × Option String) :=
  getLoop service max_results fuel none []

/-- A calendar date; only the fields read by `strftime('%-d %b %y')` are
modelled. -/
structure SimpleDate : Type where
  year : Nat
  month : Nat
  day : Nat
  deriving DecidableEq

/-- A ConvertedArtifact as returned by the external converter. -/
structure Essay : Type where
  PostTitle : String
  Content : String
  Keywords : List String
  Author : String
  Date : SimpleDate
  deriving DecidableEq

/-- Abbreviated month name, as produced by `strftime('%b')` for months 1-12. -/
def month_abbrev (m : Nat) : String :=
  ["Jan", "Feb", "Mar", "Apr", "May", "Jun",
   "Jul", "Aug", "Sep", "Oct", "Nov", "Dec"].getD (m - 1) ""

/-- Two-digit zero-padded year, as produced by `strftime('%y')`. -/
def two_digit_year (y : Nat) : String :=
  (if y % 100 < 10 then "0" else "") ++ toString (y % 100)

/-- `essay.Date.strftime('%-d %b %y')`: day without leading zero, abbreviated
month, two-digit year. -/
def date_str (d : SimpleDate) : String :=
  toString d.day ++ " " ++ month_abbrev d.month ++ " " ++ two_digit_year d.year

/-- The filesystem-hostile characters removed by
`re.sub(r'[<>:"/\\|?*/?]', '', title)`. -/
def pyForbidden (c : Char) : Bool :=
  c == '<' || c == '>' || c == ':' || c == '"' || c == '/' ||
  c == '\\' || c == '|' || c == '?' || c == '*'

/-- ASCII whitespace as matched by the regex class and stripped by
`str.strip()`. -/
def pyIsSpace (c : Char) : Bool :=
  c == ' ' || c == '\t' || c == '\n' || c == '\r' || c == '\x0b' || c == '\x0c'

/-- State machine for `re.sub(r'\s+', ' ', s)`: the flag records whether the
previous character belonged to a whitespace run already replaced by one
space. -/
def collapseAux : Bool → List Char → List Char
  | _, [] => []
  | prevSpace, c :: rest =>
    match pyIsSpace c, prevSpace with
    | true, true => collapseAux true rest
    | true, false => ' ' :: collapseAux true rest
    | false, _ => c :: collapseAux false rest

/-- `re.sub(r'\s+', ' ', s)`: every maximal whitespace run becomes one space. -/
def collapseWs (l : List Char) : List Char := collapseAux false l

/-- `str.strip()`: drop leading and trailing whitespace. -/
def trimWs (l : List Char) : List Char :=
  ((l.dropWhile pyIsSpace).reverse.dropWhile pyIsSpace).reverse

/-- The title sanitization of the conversion stage: remove the
filesystem-hostile characters, collapse whitespace runs, strip surrounding
whitespace, truncate to 150 characters (`clean_title` in the source). -/
def sanitizeTitleChars (l : List Char) : List Char :=
  (trimWs (collapseWs (l.filter (fun c => !pyForbidden c)))).take 150

/-- String-level wrapper of the title sanitization. -/
def clean_title (t : String) : String := String.mk (sanitizeTitleChars t.data)

/-- The derived output filename
`f"{date_str} {clean_title}.md"`. -/
def md_filename (e : Essay) : String :=
  date_str e.Date ++ " " ++ clean_title e.PostTitle ++ ".md"

/-- Observable outcome of one conversion-stage run: the artifact store (name
to content, newest first), the reported success and failure counters, and the
number of converter invocations. -/
structure ConvOutcome : Type where
  store : List (String × String)
  successful : Nat
  failed : Nat
  converterCalls : Nat
  deriving DecidableEq

/-- The per-file loop of `convert_emails_to_markdown`.  An `.error` input is a
record file whose read or field access raises (outer handler: counted as
failed).  For an `.ok` record the converter is invoked on `body.text`; a
converter failure hits the inner handler, which logs and continues without
touching any counter.  On success the filename is derived and the record is
skipped when a file of that name already exists (without a write and without
touching any counter); otherwise the artifact is written and counted as
successful. -/
def convertLoop (conv : String → Option Essay) :
    List (Except Unit RawEmailRecord) → List (String × String) → Nat → Nat → Nat → ConvOutcome
  | [], store, succ, fail, calls =>
    { store := store, successful := succ, failed := fail, converterCalls := calls }
  | .error _ :: rest, store, succ, fail, calls =>
    convertLoop conv rest store succ (fail + 1) calls
  | .ok rcd :: rest, store, succ, fail, calls =>
    match conv rcd.body.text with
    | none => convertLoop conv rest store succ fail (calls + 1)
    | some essay =>
      let fname := md_filename essay
      if (store.lookup fname).isSome then
        convertLoop conv rest store succ fail (calls + 1)
      else
        convertLoop conv rest ((fname, essay.Content) :: store) (succ + 1) fail (calls + 1)

/-- Embedding of `convert_emails_to_markdown(raw_emails_dir, output_dir)`:
run the loop over the enumerated record files with zeroed counters. -/
def convert_emails_to_markdown (conv : String → Option Essay)
    (files : List (Except Unit RawEmailRecord)) (store0 : List (String × String)) :
    ConvOutcome :=
  convertLoop conv files store0 0 0 0

/-- A filename already mapped in the artifact store keeps its content across a
conversion run: the write branch is guarded by the existence check. -/
theorem convertLoop_lookup_preserved (conv : String → Option Essay) :
    ∀ (files : List (Except Unit RawEmailRecord)) (store : List (String × String))
      (succ fail calls : Nat) (k v : String),
      store.lookup k = some v →
      ((convertLoop conv files store succ fail calls).store.lookup k) = some v := by
  intro files
  induction files with
  | nil => intro store succ fail calls k v h; simpa [convertLoop] using h
  | cons f rest ih =>
    intro store succ fail calls k v h
    match f with
    | .error e => exact ih store succ (fail + 1) calls k v h
    | .ok rcd =>
      simp only [convertLoop]
      cases hc : conv rcd.body.text with
      | none => exact ih store succ fail (calls + 1) k v h
      | some essay =>
        by_cases he : (store.lookup (md_filename essay)).isSome
        · simp only [he, if_true]
          exact ih store succ fail (calls + 1) k v h
        · simp only [he, if_false, Bool.false_eq_true]
          apply ih
          have hk : (k == md_filename essay) = false := by
            refine beq_eq_false_iff_ne.mpr fun hkf => he ?_
            rw [← hkf, h]
            rfl
          simpa [List.lookup, hk] using h

/-- The reported failure counter counts exactly the record files whose read
raised; no other branch of the loop touches it. -/
theorem convertLoop_failed_count (conv : String → Option Essay) :
    ∀ (files : List (Except Unit RawEmailRecord)) (store : List (String × String))
      (succ fail calls : Nat),
      (convertLoop conv files store succ fail calls).failed =
        fail + files.countP (fun f => match f with | .error _ => true | .ok _ => false) := by
  intro files
  induction files with
  | nil => intro store succ fail calls; simp [convertLoop]
  | cons f rest ih =>
    intro store succ fail calls
    match f with
    | .error e =>
      simp [convertLoop, List.countP_cons, ih]
      omega
    | .ok rcd =>
      simp only [convertLoop, List.countP_cons]
      cases hc : conv rcd.body.text with
      | none => simp [ih]
      | some essay =>
        by_cases he : (store.lookup (md_filename essay)).isSome
        · simp [he, ih]
        · simp [he, ih]

/-- A record whose body text is empty. -/
def rcd0 : RawEmailRecord := ⟨"m1", "", [], "", [], ⟨"", ""⟩⟩

/-- A converter result with title `T` and date 2024-03-05, so its derived
filename is `5 Mar 24 T.md`. -/
def essay0 : Essay := ⟨"T", "new content", [], "A", ⟨2024, 3, 5⟩⟩

/-- A converter that always succeeds with `essay0`. -/
def conv0 : String → Option Essay := fun _ => some essay0

/-- A converter that always raises. -/
def convFail : String → Option Essay := fun _ => none

/-- An artifact store already holding the file that `essay0` derives. -/
def store0C1 : List (String × String) := [("5 Mar 24 T.md", "old content")]

/-- C1, amended: for every persisted record whose derived output filename
already names an existing artifact, the conversion stage skips the record
without writing (counters untouched, converter invoked exactly once for it),
and an existing artifact file is never overwritten: any filename-to-content
association present before the run is still observable after it. -/
theorem C1_conversion_skip_never_overwrites :
    (∀ (conv : String → Option Essay) (files : List (Except Unit RawEmailRecord))
       (store0 : List (String × String)) (k v : String),
       store0.lookup k = some v →
       ((convert_emails_to_markdown conv files store0).store.lookup k) = some v) ∧
    (∀ (conv : String → Option Essay) (rcd : RawEmailRecord)
       (store0 : List (String × String)) (essay : Essay),
       conv rcd.body.text = some essay →
       (store0.lookup (md_filename essay)).isSome →
       convert_emails_to_markdown conv [.ok rcd] store0 =
         { store := store0, successful := 0, failed := 0, converterCalls := 1 }) := by
  constructor
  · intro conv files store0 k v h
    exact convertLoop_lookup_preserved conv files store0 0 0 0 k v h
  · intro conv rcd store0 essay hc he
    simp [convert_emails_to_markdown, convertLoop, hc, he]

/-- Witness for C1 at a concrete converter, record and pre-populated store. -/
theorem C1_witness :
    ((convert_emails_to_markdown conv0 [.ok rcd0] store0C1).store.lookup "5 Mar 24 T.md") =
      some "old content" ∧
    convert_emails_to_markdown conv0 [.ok rcd0] store0C1 =
      { store := store0C1, successful := 0, failed := 0, converterCalls := 1 } := by
  constructor
  · exact C1_conversion_skip_never_overwrites.1 conv0 [.ok rcd0] store0C1
      "5 Mar 24 T.md" "old content" rfl
  · exact C1_conversion_skip_never_overwrites.2 conv0 rcd0 store0C1 essay0 rfl (by decide)

/-- Counterexample to C1 as stated: with the derived artifact already present,
the record is skipped and nothing is overwritten, but the external converter
is still invoked (one invocation, not zero) — the filename can only be
derived from the converter's output, so the existence check runs after the
conversion. -/
theorem C1_counterexample :
    (convert_emails_to_markdown conv0 [.ok rcd0] store0C1).store = store0C1 ∧
    (convert_emails_to_markdown conv0 [.ok rcd0] store0C1).successful = 0 ∧
    (convert_emails_to_markdown conv0 [.ok rcd0] store0C1).converterCalls = 1 := by
  exact ⟨by decide, by decide, by decide⟩

/-- A record whose body text is `t2`. -/
def rcdB : RawEmailRecord := ⟨"m2", "", [], "", [], ⟨"t2", ""⟩⟩

/-- A converter that fails on every text except `t2`. -/
def convMixed : String → Option Essay := fun s => if s = "t2" then some essay0 else none

/-- C3, amended: a record for which the external converter raises is logged
and processing continues with the next record, but it is not counted in the
reported failure count — the failure counter counts exactly the records whose
file read raised before the converter was invoked. -/
theorem C3_conversion_failure_accounting :
    (∀ (conv : String → Option Essay) (files : List (Except Unit RawEmailRecord))
       (store0 : List (String × String)),
       (convert_emails_to_markdown conv files store0).failed =
         files.countP (fun f => match f with | .error _ => true | .ok _ => false)) ∧
    (∀ (conv : String → Option Essay) (r1 r2 : RawEmailRecord)
       (store0 : List (String × String)) (essay : Essay),
       conv r1.body.text = none → conv r2.body.text = some essay →
       store0.lookup (md_filename essay) = none →
       (convert_emails_to_markdown conv [.ok r1, .ok r2] store0).successful = 1 ∧
       (convert_emails_to_markdown conv [.ok r1, .ok r2] store0).store.lookup
           (md_filename essay) = some essay.Content ∧
       (convert_emails_to_markdown conv [.ok r1, .ok r2] store0).failed = 0) := by
  constructor
  · intro conv files store0
    simpa using convertLoop_failed_count conv files store0 0 0 0
  · intro conv r1 r2 store0 essay h1 h2 h3
    simp [convert_emails_to_markdown, convertLoop, h1, h2, h3, List.lookup]

/-- Witness for C3 at a converter that fails on the first record and succeeds
on the second. -/
theorem C3_witness :
    (convert_emails_to_markdown convMixed [.ok rcd0, .ok rcdB] []).successful = 1 ∧
    (convert_emails_to_markdown convMixed [.ok rcd0, .ok rcdB] []).store.lookup
        (md_filename essay0) = some "new content" ∧
    (convert_emails_to_markdown convMixed [.ok rcd0, .ok rcdB] []).failed = 0 := by
  have h := C3_conversion_failure_accounting.2 convMixed rcd0 rcdB [] essay0 rfl rfl rfl
  exact ⟨h.1, h.2.1, h.2.2⟩

/-- Counterexample to C3 as stated: one record, converter invoked once and
raising, yet the reported failure count stays 0 — the inner handler continues
without incrementing it. -/
theorem C3_counterexample :
    convFail rcd0.body.text = none ∧
    (convert_emails_to_markdown convFail [.ok rcd0] []).converterCalls = 1 ∧
    (convert_emails_to_markdown convFail [.ok rcd0] []).failed = 0 := by
  exact ⟨rfl, rfl, rfl⟩

/-- A decoder standing for a successful base64+UTF-8 decode of every part. -/
def decodeId : String → Option String := fun s => some s

/-- A payload tree whose only inline content is one plain-text part, followed
by a sibling container (an attachment wrapper) holding no textual part. -/
def treePlainThenContainer : PayloadNode :=
  .container "multipart/mixed" none
    (.cons (.leaf "text/plain" (some "hello"))
      (.cons (.container "multipart/alternative" none
        (.cons (.leaf "image/png" none) .nil)) .nil))

/-- C2: evaluation of the extractor at the failing input.  With no filter, the
tree above contains only plain-text content (as the filtered run shows), yet
the unfiltered extraction returns the empty string: the remembered plain-text
fallback is overwritten by the empty result of recursing into the later
sibling container.  Without that sibling, the same plain-text part is
returned, and an HTML sibling is preferred when present. -/
theorem C2_extractor_plain_fallback_lost :
    extract_content_from_payload decodeId treePlainThenContainer none = .ok "" ∧
    extract_content_from_payload decodeId treePlainThenContainer (some "text/plain") =
      .ok "hello" ∧
    extract_content_from_payload decodeId
      (.container "multipart/mixed" none
        (.cons (.leaf "text/plain" (some "hello")) .nil)) none = .ok "hello" ∧
    extract_content_from_payload decodeId
      (.container "multipart/alternative" none
        (.cons (.leaf "text/plain" (some "p"))
          (.cons (.leaf "text/html" (some "h")) .nil))) none = .ok "h" := by
  exact ⟨rfl, rfl, rfl, rfl⟩

/-- Every page-size bound passed to the listing endpoint equals the truthy
maximum when one is given, and 500 otherwise. -/
theorem getLoop_log_psize (service : Nat → Option String → Option ListPage)
    (max_results : Option Nat) :
    ∀ (fuel : Nat) (token : Option String) (acc : List String),
      ∀ q ∈ (getLoop service max_results fuel token acc).2,
        q.1 = (truthyMax max_results).getD 500 := by
  intro fuel
  induction fuel with
  | zero => intro token acc q hq; simp [getLoop] at hq
  | succ n ih =>
    intro token acc q hq
    simp only [getLoop] at hq
    cases hm : truthyMax max_results with
    | some m =>
      simp only [hm, Option.getD_some] at hq ⊢
      cases hs : service m token with
      | none => simp [hs] at hq; simp [hq]
      | some page =>
        simp only [hs] at hq
        by_cases hle : m ≤ (acc ++ page.messages).length
        · simp only [hle, if_true, List.mem_singleton] at hq
          simp [hq]
        · simp only [hle, if_false] at hq
          cases ht : page.nextPageToken with
          | none => simp [ht] at hq; simp [hq]
          | some t =>
            simp only [ht, List.mem_cons] at hq
            rcases hq with hq | hq
            · simp [hq]
            · have hx := ih (some t) (acc ++ page.messages) q hq
              rw [hm] at hx
              simpa using hx
    | none =>
      simp only [hm, Option.getD_none] at hq ⊢
      cases hs : service 500 token with
      | none => simp [hs] at hq; simp [hq]
      | some page =>
        simp only [hs] at hq
        cases ht : page.nextPageToken with
        | none => simp [ht] at hq; simp [hq]
        | some t =>
          simp only [ht, List.mem_cons] at hq
          rcases hq with hq | hq
          · simp [hq]
          · have hx := ih (some t) (acc ++ page.messages) q hq
            rw [hm] at hx
            simpa using hx

/-- Under a truthy maximum `m`, the accumulated identifier list never exceeds
`m` elements: on reaching `m` the loop truncates to exactly `m` and stops. -/
theorem getLoop_length_le (service : Nat → Option String → Option ListPage)
    (m : Nat) (hm : 0 < m) :
    ∀ (fuel : Nat) (token : Option String) (acc : List String),
      acc.length < m →
      ((getLoop service (some m) fuel token acc).1).length ≤ m := by
  have hmx : truthyMax (some m) = some m := by
    simp [truthyMax, Nat.pos_iff_ne_zero.mp hm]
  intro fuel
  induction fuel with
  | zero => intro token acc h; simpa [getLoop] using h.le
  | succ n ih =>
    intro token acc h
    simp only [getLoop, hmx]
    cases hs : service ((some m).getD 500) token with
    | none => simpa using h.le
    | some page =>
      by_cases hle : m ≤ (acc ++ page.messages).length
      · simp only [hle, if_true, List.length_take]
        omega
      · simp only [hle, if_false]
        cases ht : page.nextPageToken with
        | none => simpa using (Nat.not_le.mp hle).le
        | some t => exact ih (some t) (acc ++ page.messages) (Nat.not_le.mp hle)

/-- A listing source returning three pages of 500 identifiers chained by
cursors `t1`, `t2`, `t3`, then a final page with no further cursor. -/
def service4 : Nat → Option String → Option ListPage := fun _ token =>
  match token with
  | none => some ⟨(List.range' 0 500).map toString, some "t1"⟩
  | some "t1" => some ⟨(List.range' 500 500).map toString, some "t2"⟩
  | some "t2" => some ⟨(List.range' 1000 500).map toString, some "t3"⟩
  | some _ => some ⟨[], none⟩

set_option maxRecDepth 100000 in
/-- C4: against the 3-pages-of-500-then-no-cursor source the retriever
returns exactly 1500 identifiers and stops after exactly 4 listing calls,
each made with the last returned cursor; under a caller maximum the
accumulated result never exceeds the maximum (the loop truncates to exactly
that count and stops); with maximum 10 against the same source it stops after
one call with exactly the first 10 identifiers in order. -/
theorem C4_pagination_termination :
    ((get_message_ids service4 none 10).1.length = 1500 ∧
     (get_message_ids service4 none 10).2 =
       [(500, none), (500, some "t1"), (500, some "t2"), (500, some "t3")]) ∧
    (∀ (service : Nat → Option String → Option ListPage) (m fuel : Nat), 0 < m →
       ((get_message_ids service (some m) fuel).1).length ≤ m) ∧
    ((get_message_ids service4 (some 10) 10).1 = (List.range' 0 10).map toString ∧
     (get_message_ids service4 (some 10) 10).2 = [(10, none)]) := by
  refine ⟨⟨by decide, by decide⟩, ?_, by decide, by decide⟩
  intro service m fuel hm
  exact getLoop_length_le service m hm fuel none [] (by simpa using hm)

set_option maxRecDepth 100000 in
/-- Witness for the truncation bound of C4 at a concrete source, maximum and
fuel. -/
theorem C4_witness : ((get_message_ids service4 (some 750) 10).1).length ≤ 750 :=
  C4_pagination_termination.2.1 service4 750 10 (by decide)

/-- C10: with a truthy caller maximum `m`, every listing call is made with
page size `m` instead of the 500 default, and a source whose first page
already holds at least `m` identifiers satisfies the maximum with a single
listing call, truncated to exactly the first `m` identifiers. -/
theorem C10_max_results_page_size :
    ∀ (service : Nat → Option String → Option ListPage) (m fuel : Nat) (page : ListPage),
      0 < m →
      (∀ q ∈ (get_message_ids service (some m) fuel).2, q.1 = m) ∧
      (service m none = some page → m ≤ page.messages.length → 0 < fuel →
        (get_message_ids service (some m) fuel).1 = page.messages.take m ∧
        (get_message_ids service (some m) fuel).2 = [(m, none)]) := by
  intro service m fuel page hm
  have hmx : truthyMax (some m) = some m := by
    simp [truthyMax, Nat.pos_iff_ne_zero.mp hm]
  constructor
  · intro q hq
    have hx := getLoop_log_psize service (some m) fuel none [] q hq
    rw [hmx] at hx
    simpa using hx
  · intro hs hlen hf
    obtain ⟨n, rfl⟩ := Nat.exists_eq_succ_of_ne_zero (Nat.pos_iff_ne_zero.mp hf)
    simp [get_message_ids, getLoop, hmx, hs, hlen]

set_option maxRecDepth 100000 in
/-- Witness for C10 at the concrete source: every call uses page size 10 and
one call suffices. -/
theorem C10_witness :
    (∀ q ∈ (get_message_ids service4 (some 10) 10).2, q.1 = 10) ∧
    (get_message_ids service4 (some 10) 10).1 =
      ((List.range' 0 500).map toString).take 10 := by
  have h := C10_max_results_page_size service4 10 10
    ⟨(List.range' 0 500).map toString, some "t1"⟩ (by decide)
  refine ⟨h.1, ?_⟩
  exact (h.2 rfl (by decide) (by decide)).1

/-- A record file present in the store stays present through a download run:
the loop only adds files. -/
theorem downloadLoop_lookup_mono (service : String → FetchFormat → Option GmailMessage)
    (decode : String → Option String) :
    ∀ (ids : List String) (files : List (String × RawEmailRecord)) (k : String),
      (files.lookup k).isSome →
      (((downloadLoop service decode ids files).1).lookup k).isSome := by
  intro ids
  induction ids with
  | nil => intro files k h; simpa [downloadLoop] using h
  | cons i rest ih =>
    intro files k h
    simp only [downloadLoop]
    by_cases he : (files.lookup (i ++ ".json")).isSome
    · simp only [he, if_true]
      exact ih files k h
    · simp only [he, if_false]
      cases hf : fetchProcess service decode i with
      | none => exact ih files k h
      | some rcd =>
        apply ih
        cases hk : (k == (i ++ ".json")) <;> simp [List.lookup, hk, h]

/-- After a download run, every processed identifier either has its record
file on disk or its fetch-and-process raised. -/
theorem downloadLoop_present (service : String → FetchFormat → Option GmailMessage)
    (decode : String → Option String) :
    ∀ (ids : List String) (files : List (String × RawEmailRecord)) (msgId : String),
      msgId ∈ ids →
      ((((downloadLoop service decode ids files).1).lookup (msgId ++ ".json")).isSome ∨
        fetchProcess service decode msgId = none) := by
  intro ids
  induction ids with
  | nil => intro files msgId h; cases h
  | cons i rest ih =>
    intro files msgId h
    rcases List.mem_cons.mp h with rfl | hmem
    · simp only [downloadLoop]
      by_cases he : (files.lookup (msgId ++ ".json")).isSome
      · simp only [he, if_true]
        exact Or.inl (downloadLoop_lookup_mono service decode rest files _ he)
      · simp only [he, if_false]
        cases hf : fetchProcess service decode msgId with
        | none => exact Or.inr rfl
        | some rcd =>
          refine Or.inl ?_
          apply downloadLoop_lookup_mono
          simp [List.lookup]
    · simp only [downloadLoop]
      by_cases he : (files.lookup (i ++ ".json")).isSome
      · simp only [he, if_true]
        exact ih files msgId hmem
      · simp only [he, if_false]
        cases hf : fetchProcess service decode i with
        | none => exact ih files msgId hmem
        | some rcd => exact ih ((i ++ ".json", rcd) :: files) msgId hmem

/-- When every identifier is either already persisted or bound to fail, a
download run leaves the file set unchanged. -/
theorem downloadLoop_stable (service : String → FetchFormat → Option GmailMessage)
    (decode : String → Option String) :
    ∀ (ids : List String) (files : List (String × RawEmailRecord)),
      (∀ msgId ∈ ids,
        ((files.lookup (msgId ++ ".json")).isSome ∨ fetchProcess service decode msgId = none)) →
      ((downloadLoop service decode ids files).1) = files := by
  intro ids
  induction ids with
  | nil => intro files _; simp [downloadLoop]
  | cons i rest ih =>
    intro files h
    have hrest : ∀ msgId ∈ rest,
        ((files.lookup (msgId ++ ".json")).isSome ∨ fetchProcess service decode msgId = none) :=
      fun msgId hm => h msgId (List.mem_cons_of_mem i hm)
    simp only [downloadLoop]
    rcases h i (List.mem_cons_self i rest) with he | hf
    · simp only [he, if_true]
      exact ih files hrest
    · by_cases he : (files.lookup (i ++ ".json")).isSome
      · simp only [he, if_true]
        exact ih files hrest
      · simp only [he, if_false, hf]
        exact ih files hrest

/-- When every identifier is already persisted, a download run changes
nothing and performs no fetch at all. -/
theorem downloadLoop_noop (service : String → FetchFormat → Option GmailMessage)
    (decode : String → Option String) :
    ∀ (ids : List String) (files : List (String × RawEmailRecord)),
      (∀ msgId ∈ ids, ((files.lookup (msgId ++ ".json")).isSome)) →
      downloadLoop service decode ids files = (files, []) := by
  intro ids
  induction ids with
  | nil => intro files _; simp [downloadLoop]
  | cons i rest ih =>
    intro files h
    have he := h i (List.mem_cons_self i rest)
    simp only [downloadLoop, he, if_true]
    exact ih files (fun msgId hm => h msgId (List.mem_cons_of_mem i hm))

/-- C5, amended: running the downloader a second time over the same
identifier sequence, against the store produced by the first run, leaves the
set of on-disk record files exactly unchanged; and when every identifier's
fetch-and-process succeeded, the second run performs zero remote fetches
(every identifier's `{id}.json` exists and is skipped before any fetch).  An
identifier whose first-run fetch failed leaves no `{id}.json` and is fetched
again by the second run, so the zero-fetch part does not hold
unconditionally. -/
theorem C5_downloader_idempotent :
    ∀ (service : String → FetchFormat → Option GmailMessage) (decode : String → Option String)
      (ids : List String) (outDir : String) (store0 : LocalStore),
      (download_email_batch service decode ids outDir
          (download_email_batch service decode ids outDir store0 false).store false).store.files =
        (download_email_batch service decode ids outDir store0 false).store.files ∧
      ((∀ msgId ∈ ids, (fetchProcess service decode msgId).isSome) →
        (download_email_batch service decode ids outDir
            (download_email_batch service decode ids outDir store0 false).store
            false).fetchLog = []) := by
  intro service decode ids outDir store0
  simp only [download_email_batch, if_false, Bool.false_eq_true]
  constructor
  · exact downloadLoop_stable service decode ids (downloadLoop service decode ids store0.files).1
      (fun msgId hm => downloadLoop_present service decode ids store0.files msgId hm)
  · intro hall
    have hpres : ∀ msgId ∈ ids,
        ((((downloadLoop service decode ids store0.files).1).lookup (msgId ++ ".json")).isSome) := by
      intro msgId hm
      rcases downloadLoop_present service decode ids store0.files msgId hm with h | h
      · exact h
      · have := hall msgId hm
        rw [h] at this
        simp at this
    rw [downloadLoop_noop service decode ids (downloadLoop service decode ids store0.files).1 hpres]

/-- A service for which every full fetch succeeds with a payload-free
message. -/
def svcOk : String → FetchFormat → Option GmailMessage :=
  fun i _ => some ⟨some i, none, none, none, none⟩

/-- Witness for C5 at a concrete service and identifier sequence. -/
theorem C5_witness :
    (download_email_batch svcOk decodeId ["a", "b"] "out"
        (download_email_batch svcOk decodeId ["a", "b"] "out" ⟨[], []⟩ false).store
        false).store.files =
      (download_email_batch svcOk decodeId ["a", "b"] "out" ⟨[], []⟩ false).store.files ∧
    (download_email_batch svcOk decodeId ["a", "b"] "out"
        (download_email_batch svcOk decodeId ["a", "b"] "out" ⟨[], []⟩ false).store
        false).fetchLog = [] := by
  have h := C5_downloader_idempotent svcOk decodeId ["a", "b"] "out" ⟨[], []⟩
  exact ⟨h.1, h.2 (by decide)⟩

/-- A service whose full fetch of the identifier `bad` always raises while
every other fetch succeeds. -/
def svcBad : String → FetchFormat → Option GmailMessage :=
  fun i _ => if i = "bad" then none else some ⟨some i, none, none, none, none⟩

/-- Counterexample to C5 as stated: the first run fails to fetch `bad` and
therefore writes no `bad.json`, so the second run over the same sequence
performs a remote full-message fetch for `bad` — not zero fetches.  The file
set is still unchanged between the two runs. -/
theorem C5_counterexample :
    (download_email_batch svcBad decodeId ["a", "bad"] "out"
        (download_email_batch svcBad decodeId ["a", "bad"] "out" ⟨[], []⟩ false).store
        false).fetchLog = [("bad", FetchFormat.full)] ∧
    (download_email_batch svcBad decodeId ["a", "bad"] "out"
        (download_email_batch svcBad decodeId ["a", "bad"] "out" ⟨[], []⟩ false).store
        false).store.files =
      (download_email_batch svcBad decodeId ["a", "bad"] "out" ⟨[], []⟩ false).store.files := by
  exact ⟨by decide, by decide⟩

/-- C6: a decode failure raised inside the extractor is not swallowed there
(a filtered extraction over a part with undecodable data is an error), it
propagates through record processing, and the downloader isolates any
per-identifier failure: removing a failing identifier from the sequence does
not change the resulting file set, so one bad message never costs the rest of
the run. -/
theorem C6_per_item_error_isolation :
    ∀ (service : String → FetchFormat → Option GmailMessage) (decode : String → Option String),
      (∀ d : String, decode d = none →
        extract_content_from_payload decode (.leaf "text/plain" (some d)) (some "text/plain") =
          .error ()) ∧
      (∀ (m : GmailMessage) (pt : PayloadTop), m.payload = some pt →
        extract_content_from_payload decode pt.node (some "text/plain") = .error () →
        process_email_for_storage decode m = .error ()) ∧
      (∀ (ids1 : List String) (bad : String) (ids2 : List String)
         (files : List (String × RawEmailRecord)),
        fetchProcess service decode bad = none →
        (downloadLoop service decode (ids1 ++ bad :: ids2) files).1 =
          (downloadLoop service decode (ids1 ++ ids2) files).1) := by
  intro service decode
  refine ⟨?_, ?_, ?_⟩
  · intro d hd
    simp [extract_content_from_payload, hd]
  · intro m pt hp he
    simp [process_email_for_storage, hp, he]
  · intro ids1 bad ids2 files hbad
    induction ids1 generalizing files with
    | nil =>
      simp only [List.nil_append, downloadLoop]
      by_cases he : (files.lookup (bad ++ ".json")).isSome
      · simp [he]
      · simp [he, hbad]
    | cons a rest ih =>
      simp only [List.cons_append, downloadLoop]
      by_cases he : (files.lookup (a ++ ".json")).isSome
      · simp only [he, if_true]
        exact ih files
      · simp only [he, if_false]
        cases hf : fetchProcess service decode a with
        | none => simpa using ih files
        | some rcd => simpa using ih ((a ++ ".json", rcd) :: files)

/-- A decoder that always raises. -/
def decodeNone : String → Option String := fun _ => none

/-- A service for which every fetch raises. -/
def svcNone : String → FetchFormat → Option GmailMessage := fun _ _ => none

/-- A fetched message whose only textual part has undecodable data. -/
def msgBad : GmailMessage :=
  ⟨none, none, none, none, some ⟨none, .leaf "text/plain" (some "zz")⟩⟩

/-- Witness for C6 at a concrete failing decoder, message and sequence. -/
theorem C6_witness :
    extract_content_from_payload decodeNone (.leaf "text/plain" (some "zz"))
      (some "text/plain") = .error () ∧
    process_email_for_storage decodeNone msgBad = .error () ∧
    (downloadLoop svcNone decodeNone ["a", "bad", "b"] []).1 =
      (downloadLoop svcNone decodeNone ["a", "b"] []).1 := by
  refine ⟨(C6_per_item_error_isolation svcNone decodeNone).1 "zz" rfl, ?_, ?_⟩
  · exact (C6_per_item_error_isolation svcNone decodeNone).2.1 msgBad
      ⟨none, .leaf "text/plain" (some "zz")⟩ rfl
      ((C6_per_item_error_isolation svcNone decodeNone).1 "zz" rfl)
  · exact (C6_per_item_error_isolation svcNone decodeNone).2.2 ["a"] "bad" ["b"] [] rfl

/-- C7: a dry run leaves the local store untouched — no file is written and
no directory is created — and its fetch log consists of exactly one
headers-only metadata fetch for each of the first `min(5, n)` identifiers,
and nothing else (in particular, no full-message fetch). -/
theorem C7_dry_run_frame :
    ∀ (service : String → FetchFormat → Option GmailMessage) (decode : String → Option String)
      (ids : List String) (outDir : String) (store : LocalStore),
      (download_email_batch service decode ids outDir store true).store = store ∧
      (download_email_batch service decode ids outDir store true).fetchLog =
        (ids.take (min 5 ids.length)).map (fun i => (i, FetchFormat.metadata)) := by
  intro service decode ids outDir store
  exact ⟨rfl, rfl⟩

/-- C9: every RawEmailRecord assembled from a fetched message carries all
schema fields with empty defaults for whatever the message lacks: a message
with no payload yields the fully-defaulted record outright, and any
successfully assembled record takes its identifier fields from the message
with empty-string and empty-list defaults and an empty header mapping when
the payload has no headers. -/
theorem C9_record_schema_totality :
    ∀ (decode : String → Option String) (m : GmailMessage),
      (m.payload = none →
        process_email_for_storage decode m =
          .ok ⟨m.id.getD "", m.threadId.getD "", m.labelIds.getD [], m.snippet.getD "",
               [], ⟨"", ""⟩⟩) ∧
      (∀ r : RawEmailRecord, process_email_for_storage decode m = .ok r →
        r.id = m.id.getD "" ∧ r.threadId = m.threadId.getD "" ∧
        r.labelIds = m.labelIds.getD [] ∧ r.snippet = m.snippet.getD "" ∧
        (∀ pt : PayloadTop, m.payload = some pt → pt.headers = none → r.headers = [])) := by
  intro decode m
  constructor
  · intro h
    simp [process_email_for_storage, h]
  · intro r hr
    cases hp : m.payload with
    | none =>
      simp only [process_email_for_storage, hp, Except.ok.injEq] at hr
      refine ⟨?_, ?_, ?_, ?_, ?_⟩ <;> try (rw [← hr])
      · intro pt hpt
        cases hpt
    | some pt2 =>
      simp only [process_email_for_storage, hp] at hr
      cases h1 : extract_content_from_payload decode pt2.node (some "text/plain") with
      | error e => simp [h1] at hr
      | ok tc =>
        simp only [h1] at hr
        cases h2 : extract_content_from_payload decode pt2.node (some "text/html") with
        | error e => simp [h2] at hr
        | ok hc =>
          simp only [h2, Except.ok.injEq] at hr
          refine ⟨?_, ?_, ?_, ?_, ?_⟩ <;> try (rw [← hr])
          intro pt hpt hh
          obtain rfl : pt2 = pt := by injection hpt
          simp [hh]

/-- A message with none of the optional fields present. -/
def msgEmpty : GmailMessage := ⟨none, none, none, none, none⟩

/-- Witness for C9 at the fully-empty message shape. -/
theorem C9_witness :
    process_email_for_storage decodeNone msgEmpty = .ok ⟨"", "", [], "", [], ⟨"", ""⟩⟩ :=
  (C9_record_schema_totality decodeNone msgEmpty).1 rfl

/-- Every character of the whitespace-collapse output is either the space it
substitutes for a run, or a character of the input. -/
theorem mem_collapseAux : ∀ (l : List Char) (b : Bool) (c : Char),
    c ∈ collapseAux b l → c = ' ' ∨ c ∈ l := by
  intro l
  induction l with
  | nil => intro b c h; simp [collapseAux] at h
  | cons d rest ih =>
    intro b c h
    cases hd : pyIsSpace d with
    | true =>
      cases b with
      | true =>
        simp only [collapseAux, hd] at h
        rcases ih true c h with h1 | h1
        · exact Or.inl h1
        · exact Or.inr (List.mem_cons_of_mem d h1)
      | false =>
        simp only [collapseAux, hd] at h
        rcases List.mem_cons.mp h with rfl | h1
        · exact Or.inl rfl
        · rcases ih true c h1 with h2 | h2
          · exact Or.inl h2
          · exact Or.inr (List.mem_cons_of_mem d h2)
    | false =>
      simp only [collapseAux, hd] at h
      rcases List.mem_cons.mp h with rfl | h1
      · exact Or.inr (List.mem_cons_self _ _)
      · rcases ih false c h1 with h2 | h2
        · exact Or.inl h2
        · exact Or.inr (List.mem_cons_of_mem d h2)

/-- After the collapse machine has just emitted a space, the next emitted
character is never whitespace. -/
theorem collapseAux_true_head : ∀ (l : List Char) (c : Char),
    (collapseAux true l).head? = some c → pyIsSpace c = false := by
  intro l
  induction l with
  | nil => intro c h; simp [collapseAux] at h
  | cons d rest ih =>
    intro c h
    cases hd : pyIsSpace d with
    | true =>
      simp only [collapseAux, hd] at h
      exact ih c h
    | false =>
      simp only [collapseAux, hd, List.head?_cons, Option.some.injEq] at h
      rw [← h]
      exact hd

/-- The whitespace-collapse output contains no two consecutive whitespace
characters. -/
theorem chain'_collapseAux : ∀ (l : List Char) (b : Bool),
    List.Chain' (fun a c => ¬(pyIsSpace a = true ∧ pyIsSpace c = true)) (collapseAux b l) := by
  intro l
  induction l with
  | nil => intro b; simp [collapseAux]
  | cons d rest ih =>
    intro b
    cases hd : pyIsSpace d with
    | true =>
      cases b with
      | true =>
        simp only [collapseAux, hd]
        exact ih true
      | false =>
        simp only [collapseAux, hd]
        rw [List.chain'_cons']
        refine ⟨fun y hy => ?_, ih true⟩
        have hy2 := collapseAux_true_head rest y hy
        simp [hy2]
    | false =>
      simp only [collapseAux, hd]
      rw [List.chain'_cons']
      refine ⟨fun y hy => ?_, ih false⟩
      simp [hd]

/-- Dropping a prefix preserves the no-two-consecutive invariant. -/
theorem chain'_dropWhile {α : Type} {R : α → α → Prop} (p : α → Bool) :
    ∀ (l : List α), List.Chain' R l → List.Chain' R (l.dropWhile p) := by
  intro l
  induction l with
  | nil => intro h; exact h
  | cons d rest ih =>
    intro h
    rw [List.dropWhile_cons]
    cases hp : p d with
    | true =>
      simp only [if_true]
      exact ih h.tail
    | false =>
      simp only [if_false, Bool.false_eq_true]
      exact h

/-- Truncation preserves the no-two-consecutive invariant. -/
theorem chain'_take {α : Type} {R : α → α → Prop} (l : List α) (n : Nat)
    (h : List.Chain' R l) : List.Chain' R (l.take n) := by
  have hd := List.take_append_drop n l
  rw [← hd] at h
  exact (List.chain'_append.mp h).1

/-- Reversal preserves the invariant when the relation is symmetric. -/
theorem chain'_reverse_symm {α : Type} {R : α → α → Prop} (l : List α)
    (hsym : ∀ a b, R a b → R b a) (h : List.Chain' R l) : List.Chain' R l.reverse := by
  rw [List.chain'_reverse]
  exact h.imp (fun a b hab => hsym a b hab)

/-- The first element surviving a whitespace drop fails the predicate. -/
theorem dropWhile_head_false {α : Type} (p : α → Bool) : ∀ (l : List α) (c : α),
    (l.dropWhile p).head? = some c → p c = false := by
  intro l
  induction l with
  | nil => intro c h; simp at h
  | cons d rest ih =>
    intro c h
    rw [List.dropWhile_cons] at h
    cases hp : p d with
    | true =>
      rw [hp] at h
      simp only [if_true] at h
      exact ih c h
    | false =>
      rw [hp] at h
      simp only [if_false, Bool.false_eq_true, List.head?_cons, Option.some.injEq] at h
      rw [← h]
      exact hp

/-- A character of the stripped list is a character of the input. -/
theorem mem_trimWs (l : List Char) (c : Char) (h : c ∈ trimWs l) : c ∈ l := by
  simp only [trimWs] at h
  rw [List.mem_reverse] at h
  have h2 := List.Sublist.mem h (List.dropWhile_sublist pyIsSpace)
  rw [List.mem_reverse] at h2
  exact List.Sublist.mem h2 (List.dropWhile_sublist pyIsSpace)

/-- The stripped list starts with a non-whitespace character. -/
theorem trimWs_head (l : List Char) (c : Char) (t' : List Char)
    (h : trimWs l = c :: t') : pyIsSpace c = false := by
  apply dropWhile_head_false pyIsSpace l c
  have hd1 : l.dropWhile pyIsSpace =
      trimWs l ++ ((l.dropWhile pyIsSpace).reverse.takeWhile pyIsSpace).reverse := by
    simp only [trimWs]
    conv_lhs => rw [← List.reverse_reverse (l.dropWhile pyIsSpace)]
    conv_lhs =>
      rw [← List.takeWhile_append_dropWhile pyIsSpace (l.dropWhile pyIsSpace).reverse]
    rw [List.reverse_append]
  rw [hd1, h]
  rfl

/-- The stripped list ends with a non-whitespace character. -/
theorem trimWs_getLast (l : List Char) (c : Char)
    (h : (trimWs l).getLast? = some c) : pyIsSpace c = false := by
  simp only [trimWs, List.getLast?_reverse] at h
  exact dropWhile_head_false pyIsSpace _ c h

/-- C8: the sanitized title contains none of the filesystem-hostile
characters, is at most 150 characters long, never has two consecutive
whitespace characters (runs were collapsed to one space), starts with a
non-whitespace character, and before truncation also ends with one; and the
title `Re: "Q1/Q2" Report?` with date 2024-03-05 derives exactly the
filename `5 Mar 24 Re Q1Q2 Report.md`, with a single space between the date
part and the title. -/
theorem C8_filename_sanitization :
    (∀ t : String,
      (∀ c ∈ sanitizeTitleChars t.data, pyForbidden c = false) ∧
      (sanitizeTitleChars t.data).length ≤ 150 ∧
      List.Chain' (fun a b => ¬(pyIsSpace a = true ∧ pyIsSpace b = true))
        (sanitizeTitleChars t.data) ∧
      (∀ (c : Char) (t' : List Char), sanitizeTitleChars t.data = c :: t' →
        pyIsSpace c = false) ∧
      (∀ c : Char,
        (trimWs (collapseWs (t.data.filter (fun ch => !pyForbidden ch)))).getLast? = some c →
        pyIsSpace c = false)) ∧
    md_filename ⟨"Re: \"Q1/Q2\" Report?", "", [], "", ⟨2024, 3, 5⟩⟩ =
      "5 Mar 24 Re Q1Q2 Report.md" := by
  refine ⟨fun t => ⟨?_, ?_, ?_, ?_, ?_⟩, by decide⟩
  · intro c hc
    have hc2 := List.Sublist.mem hc (List.take_sublist 150 _)
    have hc3 := mem_trimWs _ c hc2
    rcases mem_collapseAux _ false c hc3 with rfl | hc4
    · rfl
    · have := (List.mem_filter.mp hc4).2
      simpa using this
  · exact List.length_take_le 150 _
  · exact chain'_take _ 150
      (chain'_reverse_symm _ (fun a b hab h2 => hab ⟨h2.2, h2.1⟩)
        (chain'_dropWhile pyIsSpace _
          (chain'_reverse_symm _ (fun a b hab h2 => hab ⟨h2.2, h2.1⟩)
            (chain'_dropWhile pyIsSpace _ (chain'_collapseAux _ false)))))
  · intro c t' h
    unfold sanitizeTitleChars at h
    cases hl : trimWs (collapseWs (t.data.filter (fun ch => !pyForbidden ch))) with
    | nil => rw [hl] at h; simp at h
    | cons e rest =>
      rw [hl] at h
      rw [List.take_cons] at h
      · injection h with h1 h2
        rw [← h1]
        exact trimWs_head _ e rest hl
      · norm_num
  · intro c h
    exact trimWs_getLast _ c h

/-- Witness for C8 at the concrete title `" a  b"`, whose sanitized form is
`a b`. -/
theorem C8_witness :
    pyForbidden 'a' = false ∧
    (sanitizeTitleChars (String.data " a  b")).length ≤ 150 ∧
    pyIsSpace 'a' = false ∧
    pyIsSpace 'b' = false := by
  have h := C8_filename_sanitization.1 " a  b"
  refine ⟨h.1 'a' (by decide), h.2.1, ?_, ?_⟩
  · exact h.2.2.2.1 'a' [' ', 'b'] (by decide)
  · exact h.2.2.2.2 'b' (by decide)
